import Mathlib

/-!
Verification of the Solana TSS service (`Solana-tss-cli-to-API`).

The repository exposes a two-round aggregated Schnorr-style signing protocol
over Solana transactions.  We shallowly embed:

* the data model of `src/models.rs` (`Network`, request/response payloads
  as far as the claims need them),
* the error enum of `src/error.rs`,
* the transaction-template renderers of `src/main.rs`
  (`create_unsigned_transaction`), `src/staking.rs`
  (`create_stake_account_transaction`, `create_deactivate_stake_transaction`,
  `create_withdraw_stake_transaction`) and `src/spl_token_utils.rs`
  (`create_spl_token_transaction`),
* the base-58 boundary parsing of `src/main.rs` (`parse_pubkey`).

The `tss` and `serialization` modules are declared in `src/main.rs`
(`mod tss; mod serialization;`) and used by every handler, but their source
files are not part of the available sources; the definitions for them below
are modelled from the specification (sections 3, 4.1-4.4) and are marked
`Modelled from the spec:` in their doc comments.

Effectful Rust code is embedded by explicit state passing: network reads
performed by a function become an explicit `RpcEnv` argument (the responses
the chain would give), and the list of RPC requests the function issues is
returned alongside its result.  Chain SDK primitives (lamport conversion,
seed-derived addresses, associated token addresses) are vetted external
functions and are passed in as an explicit `Sdk` record.
-/

/-- Order of the prime-order subgroup of the ed25519 curve; scalars in the
protocol are residues mod this number (`mod L` in the spec, section 3). -/
def L : Nat := 7237005577332262213973186563042994240857116359379907606001950938285454250989

instance : NeZero L := ⟨by decide⟩

/-- A protocol scalar (`r`, `s_i`, coefficients, private shares). -/
abbrev Scalar := ZMod L

/-- A point of the prime-order subgroup, written additively.  The subgroup is
cyclic of order `L`, hence isomorphic to `ZMod L` as an additive group; we
work in that isomorphic copy, with the base point an arbitrary element `g`
and scalar multiplication given by ring multiplication. -/
abbrev Point := ZMod L

/-- A Solana public key at the protocol layer.  Per spec section 3 the
aggregated key "encodes to the same byte format as an ordinary single-party
public key", so protocol-layer pubkeys are identified with the points they
encode. -/
abbrev Pubkey := ZMod L

/-- A recent blockhash (checkpoint) value, abstracted to its identity. -/
abbrev Blockhash := Nat

/-- `Network` from `src/models.rs`. -/
inductive Network where
  | Mainnet
  | Testnet
  | Devnet
deriving DecidableEq

/-- `Network::get_cluster_url` from `src/models.rs` lines 11-19. -/
def Network.get_cluster_url : Network → String
  | .Mainnet => "https://api.mainnet-beta.solana.com"
  | .Testnet => "https://api.testnet.solana.com"
  | .Devnet => "https://api.devnet.solana.com"

/-- The RPC endpoint string hardcoded in `src/staking.rs` line 24 and
`src/spl_token_utils.rs` line 27. -/
def testnetUrl : String := "https://api.testnet.solana.com"

/-- Model of `bs58::decode::Error` (only the shapes the code constructs). -/
inductive Bs58Error where
  | invalidCharacter (character : Char) (index : Nat)
  | otherDecodeError
deriving DecidableEq

set_option maxHeartbeats 1000000 in
set_option synthInstance.maxHeartbeats 400000 in
/-- The error enum of `src/error.rs`.  Payloads that are foreign error types
(`ClientError`, `SignatureError`, ...) are abstracted to their message
strings; `DeserializationFailed` keeps its two fields `error` and
`field_name` exactly as in the source. -/
inductive Error where
  | WrongNetwork (net : String)
  | BadBase58 (e : Bs58Error)
  | WrongKeyPair (e : String)
  | AirdropFailed (e : String)
  | RecentHashFailed (e : String)
  | ConfirmingTransactionFailed (e : String)
  | BalaceFailed (e : String)
  | SendTransactionFailed (e : String)
  | DeserializationFailed (error : String) (field_name : String)
  | MismatchMessages
  | InvalidSignature
  | KeyPairIsNotInKeys
  | TransactionCreationFailed (msg : String)
  | SplTokenError (e : String)
  | TokenAccountNotFound
  | TokenMintNotFound
  | ProgramError (e : String)
  | StakeAccountCreationFailed (e : String)
  | InvalidStakeAccountSeed (e : String)
  | StakeDelegationFailed (e : String)
  | DeactivationFailed (e : String)
  | WithdrawalFailed (e : String)
  | InvalidPublicKey (e : String)
  | InsufficientBalance (e : String)
  | BalanceCheckFailed (e : String)
deriving DecidableEq

/-- Which errors name an offending field: per the `Display` impl in
`src/error.rs` (lines 59-61) only `DeserializationFailed` carries and prints
a `field_name`; every other variant prints no field name. -/
def errorFieldName : Error → Option String
  | Error.DeserializationFailed _ fn => some fn
  | _ => none

/-- A Solana instruction, at the granularity the claims need: each SDK
instruction constructor used by the repository becomes one constructor
carrying exactly the arguments the source passes.  The SDK serializes an
instruction injectively from these arguments, so byte-identity of rendered
messages corresponds to equality of these values. -/
inductive Instruction where
  | transfer (funding toPk : Pubkey) (lamports : Nat)
  | memo (data : String)
  | createAccountWithSeed (funding newAccount base : Pubkey) (seed : String)
      (lamports space : Nat) (owner : Pubkey)
  | stakeInit (stakeAccount staker withdrawer : Pubkey)
  | delegateStake (stakeAccount authorized voteAccount : Pubkey)
  | deactivateStake (stakeAccount authorized : Pubkey)
  | stakeWithdraw (stakeAccount authorized destination : Pubkey) (lamports : Nat)
  | createAssociatedTokenAccount (payer owner mint tokenProgram : Pubkey)
  | splTransfer (tokenProgram source destination owner : Pubkey) (amount : Nat)
deriving DecidableEq

/-- `solana_sdk::message::Message::new(instructions, Some(payer))`: the
message is a deterministic function of the instruction list and the payer. -/
structure Message where
  instructions : List Instruction
  payer : Pubkey
deriving DecidableEq

/-- `Transaction::new_unsigned(msg)`. -/
structure Transaction where
  message : Message
deriving DecidableEq

/-- The stake program id (`solana_sdk::stake::program::id()`), a fixed
address. -/
def stakeProgramId : Pubkey := 101

/-- The SPL token program id (`spl_token::id()`), a fixed address. -/
def splTokenProgramId : Pubkey := 102

/-- Vetted chain-SDK primitives used by the renderers, passed explicitly:
`native_token::sol_to_lamports`, `Pubkey::create_with_seed` (which fails on
an over-long seed, hence `Option`), `get_associated_token_address`, and the
byte size of `StakeStateV2`. -/
structure Sdk where
  solToLamports : Rat → Nat
  createWithSeed : Pubkey → String → Pubkey → Option Pubkey
  ata : Pubkey → Pubkey → Pubkey
  stakeSpace : Nat

/-- One RPC request issued by a renderer. -/
inductive RpcReq where
  | getMinimumBalanceForRentExemption (space : Nat)
  | getAccount (address : Pubkey)
deriving DecidableEq

/-- An RPC call: the endpoint contacted and the request made. -/
structure RpcCall where
  endpoint : String
  req : RpcReq
deriving DecidableEq

/-- The chain-side responses a rendering call would observe: the
rent-exemption query result and, per address, whether `get_account`
succeeds. -/
structure RpcEnv where
  rentResponse : Except String Nat
  accountExists : Pubkey → Bool

/-- `create_unsigned_transaction` from `src/main.rs` lines 51-71: a transfer
instruction for `sol_to_lamports(amount)` from `payer` to `toPk`, followed by
an optional memo instruction, assembled with `payer` as fee payer. -/
def create_unsigned_transaction (sdk : Sdk) (amount : Rat) (toPk : Pubkey)
    (memo : Option String) (payer : Pubkey) : Transaction :=
  let lamports := sdk.solToLamports amount
  let transferIns := Instruction.transfer payer toPk lamports
  let msg : Message :=
    match memo with
    | none => ⟨[transferIns], payer⟩
    | some m => ⟨[transferIns, Instruction.memo m], payer⟩
  ⟨msg⟩

/-- `create_stake_account_transaction` from `src/staking.rs` lines 14-56.
It derives the stake account with `Pubkey::create_with_seed`, then queries
the HARDCODED testnet RPC endpoint for the rent-exemption minimum (lines
24-26), and assembles create-with-seed / initialize-stake / delegate
instructions.  The second component records the RPC requests issued. -/
def create_stake_account_transaction (sdk : Sdk) (stake_amount : Nat)
    (seed : String) (payer : Pubkey) (validator_vote_accont : Pubkey)
    (env : RpcEnv) : Except Error Transaction × List RpcCall :=
  match sdk.createWithSeed payer seed stakeProgramId with
  | none => (Except.error (Error.InvalidStakeAccountSeed seed), [])
  | some stake_account =>
    let call : RpcCall := ⟨testnetUrl, RpcReq.getMinimumBalanceForRentExemption sdk.stakeSpace⟩
    match env.rentResponse with
    | Except.error e => (Except.error (Error.StakeAccountCreationFailed e), [call])
    | Except.ok rent =>
      let create_account_ins := Instruction.createAccountWithSeed payer stake_account payer
        seed (rent + stake_amount) sdk.stakeSpace stakeProgramId
      let init_ins := Instruction.stakeInit stake_account payer payer
      let delegate_ins := Instruction.delegateStake stake_account payer validator_vote_accont
      (Except.ok ⟨⟨[create_account_ins, init_ins, delegate_ins], payer⟩⟩, [call])

/-- `create_deactivate_stake_transaction` from `src/staking.rs` lines 58-65:
pure, no RPC access. -/
def create_deactivate_stake_transaction (stake_account authorized : Pubkey) : Transaction :=
  ⟨⟨[Instruction.deactivateStake stake_account authorized], authorized⟩⟩

/-- `create_withdraw_stake_transaction` from `src/staking.rs` lines 67-77:
pure, no RPC access. -/
def create_withdraw_stake_transaction (stake_account destination authorized : Pubkey)
    (amount : Nat) : Transaction :=
  ⟨⟨[Instruction.stakeWithdraw stake_account authorized destination amount], authorized⟩⟩

/-- `create_spl_token_transaction` from `src/spl_token_utils.rs` lines 12-77.
Note the source checks `get_account(&from_ata)` (line 29) but, when that
fails, pushes an instruction creating the associated token account of `toPk` (the destination)
(lines 32-38); it then checks `get_account(&to_ata)` (line 42) and pushes a
second, identical, create-`toPk`-ATA instruction when that fails.  The token
transfer and optional memo follow.  Both `get_account` probes go to the
hardcoded testnet endpoint (line 27).  `decimals` is accepted but unused by
the source.  The second component records the RPC requests issued. -/
def create_spl_token_transaction (sdk : Sdk) (amount : Nat)
    (fromPk toPk token_mint payer : Pubkey) (memo : Option String) (decimals : Nat)
    (env : RpcEnv) : Except Error Transaction × List RpcCall :=
  let from_ata := sdk.ata fromPk token_mint
  let to_ata := sdk.ata toPk token_mint
  let calls : List RpcCall :=
    [⟨testnetUrl, RpcReq.getAccount from_ata⟩, ⟨testnetUrl, RpcReq.getAccount to_ata⟩]
  let ins1 : List Instruction :=
    if env.accountExists from_ata then []
    else [Instruction.createAssociatedTokenAccount payer toPk token_mint splTokenProgramId]
  let ins2 : List Instruction :=
    if env.accountExists to_ata then []
    else [Instruction.createAssociatedTokenAccount payer toPk token_mint splTokenProgramId]
  let transferIns := [Instruction.splTransfer splTokenProgramId from_ata to_ata fromPk amount]
  let memoIns : List Instruction :=
    match memo with
    | none => []
    | some m => [Instruction.memo m]
  let _ := decimals
  (Except.ok ⟨⟨ins1 ++ ins2 ++ transferIns ++ memoIns, payer⟩⟩, calls)

/-- Handler-level view of `stake_account` in `src/main.rs` lines 686-742:
the request carries a `net` field, but the transaction is built by
`create_stake_account_transaction` without it (lines 698-703); `net` only
selects the broadcast client. -/
def stake_account_tx (sdk : Sdk) (net : Network) (stake_amount : Nat) (seed : String)
    (payer vote : Pubkey) (env : RpcEnv) : Except Error Transaction × List RpcCall :=
  let _ := net
  create_stake_account_transaction sdk stake_amount seed payer vote env

/-- Handler-level view of the SPL token handlers in `src/main.rs` (for
example `spl_aggregate_signatures`, lines 614-680): the request carries a
`net` field, but the template arguments passed on to rendering (lines
650-659) do not include it; `net` only selects the broadcast client. -/
def spl_token_tx (sdk : Sdk) (net : Network) (amount : Nat)
    (fromPk toPk token_mint payer : Pubkey) (memo : Option String) (decimals : Nat)
    (env : RpcEnv) : Except Error Transaction × List RpcCall :=
  let _ := net
  create_spl_token_transaction sdk amount fromPk toPk token_mint payer memo decimals env

/-- Modelled from the spec: the hash functions and base point of the missing
`tss` module (declared in `src/main.rs` but whose source file is not among
the available sources).  `coeffHash` is the per-key aggregation-coefficient
hash of a canonicalized key set and one key (spec 4.1); `challengeHash` is
`H(R, X, M)` over the aggregated nonce, aggregated key and rendered message
plus checkpoint (spec section 3, "Challenge"). -/
structure TssParams where
  g : Point
  coeffHash : List Pubkey → Pubkey → Scalar
  challengeHash : Point → Point → Transaction × Blockhash → Scalar

/-- Modelled from the spec: the round-1 message, carrying the public nonce
commitment `R_i = r_i * G` (spec 4.2). -/
structure AggMessage1 where
  Ri : Point
deriving DecidableEq

/-- Modelled from the spec: the secret state transported between rounds,
holding the session nonce `r_i` (spec section 3, "SecretState"). -/
structure SecretAggStepOne where
  r : Scalar
deriving DecidableEq

/-- Modelled from the spec: a partial signature, the contributing
participant's commitment together with `s_i = r_i + c * a_i * x_i mod L`
(spec section 3, "PartialSignature"). -/
structure PartialSignature where
  Ri : Point
  si : Scalar
deriving DecidableEq

/-- A fully assembled signed transaction: the rendered transaction and the
final signature `(R, s)` (spec section 3, "FinalSignature"). -/
structure SignedTx where
  tx : Transaction
  R : Point
  s : Scalar
deriving DecidableEq

/-- Ordering of pubkeys by their canonical (byte) encoding, used to
canonicalize a key set (spec 4.1: "stable sort by encoded bytes"). -/
def keyLe (a b : Pubkey) : Prop := a.val ≤ b.val

instance : DecidableRel keyLe := fun a b => Nat.decLe a.val b.val

instance : IsTotal Pubkey keyLe := ⟨fun a b => Nat.le_total a.val b.val⟩

instance : IsTrans Pubkey keyLe := ⟨fun _ _ _ h h2 => Nat.le_trans h h2⟩

instance : IsAntisymm Pubkey keyLe :=
  ⟨fun a b h h2 => ZMod.val_injective L (Nat.le_antisymm h h2)⟩

/-- Modelled from the spec: canonicalization of the participant key set by a
stable sort on encoded keys (spec 4.1). -/
def sortKeys (keys : List Pubkey) : List Pubkey :=
  List.insertionSort keyLe keys

/-- Modelled from the spec: the aggregation coefficient of `k` within the
key set `keys`, "a hash of (canonical set digest, that key)" (spec 4.1). -/
def keyAggCoeff (tp : TssParams) (keys : List Pubkey) (k : Pubkey) : Scalar :=
  tp.coeffHash (sortKeys keys) k

/-- Modelled from the spec: the weighted sum `sum of a_i * X_i` over the
canonicalized key set (spec 4.1). -/
def keyAggCore (tp : TssParams) (keys : List Pubkey) : Point :=
  ((sortKeys keys).map (fun k => keyAggCoeff tp keys k * k)).sum

/-- Validation failures of key aggregation (spec 4.1 "Failure": duplicate
keys are a validation error; the spec admits only sets of `N >= 1` unique
keys).  Malformed-encoding decode errors arise upstream, in the handler's
`parse_pubkey` loop (`src/main.rs` lines 230-238), before `key_agg` runs. -/
inductive KeyAggError where
  | emptyKeys
  | duplicateKeys
deriving DecidableEq

/-- Modelled from the spec: `key_agg` of the missing `tss` module
(spec 4.1): given an ordered set of `N >= 1` unique public keys, return the
aggregated public key; duplicate keys are rejected with a validation
error. -/
def key_agg (tp : TssParams) (keys : List Pubkey) : Except KeyAggError Point :=
  if keys = [] then Except.error KeyAggError.emptyKeys
  else if keys.Nodup then Except.ok (keyAggCore tp keys)
  else Except.error KeyAggError.duplicateKeys

/-- Modelled from the spec: `step_one` of the missing `tss` module
(spec 4.2): with the participant keypair's secret `x` and an explicitly
injected random nonce `r`, produce the round-1 message `R_i = r * G` and the
secret state holding `r`. -/
def step_one (tp : TssParams) (x r : Scalar) : AggMessage1 × SecretAggStepOne :=
  let _ := x
  (⟨r * tp.g⟩, ⟨r⟩)

/-- Modelled from the spec: `step_two` of the missing `tss` module
(spec 4.3).  Validation comes first, before any scalar or point arithmetic:
the round-1 message count must equal the key count (else `MismatchMessages`)
and the caller's public key must be in the key list (else
`KeyPairIsNotInKeys`).  Then `M` is rendered by the native-transfer template
with the aggregated key as payer, `R = sum R_i`, `c = H(R, X, M)`,
`a_i` is the caller's coefficient, and `s_i = r_i + c * a_i * x_i`. -/
def step_two (tp : TssParams) (sdk : Sdk) (x : Scalar) (amount : Rat) (toPk : Pubkey)
    (memo : Option String) (recent_block_hash : Blockhash) (keys : List Pubkey)
    (first_messages : List AggMessage1) (secret_state : SecretAggStepOne) :
    Except Error PartialSignature :=
  if first_messages.length ≠ keys.length then Except.error Error.MismatchMessages
  else if x * tp.g ∉ keys then Except.error Error.KeyPairIsNotInKeys
  else
    match key_agg tp keys with
    | Except.error _ => Except.error (Error.TransactionCreationFailed "key aggregation failed")
    | Except.ok aggKey =>
      let R := (first_messages.map AggMessage1.Ri).sum
      let tx := create_unsigned_transaction sdk amount toPk memo aggKey
      let c := tp.challengeHash R aggKey (tx, recent_block_hash)
      let a := keyAggCoeff tp keys (x * tp.g)
      Except.ok ⟨secret_state.r * tp.g, secret_state.r + c * a * x⟩

/-- Ordinary single-key verification of `(R, s)` against an aggregated key
over message `m`: `s * G = R + H(R, X, m) * X` (spec section 3,
"FinalSignature"). -/
def verify_sig (tp : TssParams) (aggKey : Point) (m : Transaction × Blockhash)
    (R : Point) (s : Scalar) : Bool :=
  decide (s * tp.g = R + tp.challengeHash R aggKey m * aggKey)

/-- Modelled from the spec: `sign_and_broadcast` of the missing `tss` module
(spec 4.4): independently re-render `M`, recompute the aggregated nonce and
aggregated key from its own inputs, sum the partial signatures, verify the
assembled signature, and on verification failure abort with
`InvalidSignature`, producing no transaction. -/
def sign_and_broadcast (tp : TssParams) (sdk : Sdk) (amount : Rat) (toPk : Pubkey)
    (memo : Option String) (recent_block_hash : Blockhash) (keys : List Pubkey)
    (signatures : List PartialSignature) : Except Error SignedTx :=
  match key_agg tp keys with
  | Except.error _ => Except.error (Error.TransactionCreationFailed "key aggregation failed")
  | Except.ok aggKey =>
    let R := (signatures.map PartialSignature.Ri).sum
    let s := (signatures.map PartialSignature.si).sum
    let tx := create_unsigned_transaction sdk amount toPk memo aggKey
    if verify_sig tp aggKey (tx, recent_block_hash) R s then Except.ok ⟨tx, R, s⟩
    else Except.error Error.InvalidSignature

/-- Outcome of the `aggregate_signatures` HTTP handler, as far as the claims
need it: whether an error response was produced, and which signed
transactions were handed to the broadcast RPC (`send_transaction`). -/
structure HandlerOutcome where
  isErr : Bool
  broadcasts : List SignedTx
deriving DecidableEq

/-- The `aggregate_signatures` handler of `src/main.rs` lines 330-389: it
calls `sign_and_broadcast` and, on error, returns an error response before
any RPC client is created (lines 361-372); only on success is the signed
transaction passed to `send_transaction` (lines 373-377). -/
def aggregate_signatures (tp : TssParams) (sdk : Sdk) (net : Network) (amount : Rat)
    (toPk : Pubkey) (memo : Option String) (recent_block_hash : Blockhash)
    (keys : List Pubkey) (signatures : List PartialSignature) : HandlerOutcome :=
  let _ := net
  match sign_and_broadcast tp sdk amount toPk memo recent_block_hash keys signatures with
  | Except.error _ => ⟨true, []⟩
  | Except.ok st => ⟨false, [st]⟩

/-- Count of leading zero digits/bytes of a big-endian digit string. -/
def leadingZeroCount : List Nat → Nat
  | [] => 0
  | d :: t => if d = 0 then leadingZeroCount t + 1 else 0

/-- Drop the leading zero digits/bytes of a big-endian digit string. -/
def dropLeadingZeros : List Nat → List Nat
  | [] => []
  | d :: t => if d = 0 then dropLeadingZeros t else d :: t

/-- The value of a big-endian digit string in base `b`. -/
def ofBE (b : Nat) (l : List Nat) : Nat := Nat.ofDigits b l.reverse

/-- The canonical big-endian digit string of `v` in base `b` (empty for 0). -/
def toBE (b v : Nat) : List Nat := (Nat.digits b v).reverse

/-- The base-58 encoding of a byte string, as produced by the `bs58` crate:
one zero digit (the character `1`) per leading zero byte, followed by the
big-endian base-58 digits of the value.  Strings are modelled as their digit
values; a character outside the alphabet is any value `>= 58`. -/
def b58encode (bytes : List Nat) : List Nat :=
  List.replicate (leadingZeroCount bytes) 0 ++ toBE 58 (ofBE 256 bytes)

/-- The base-58 decoding of a digit string, as performed by the `bs58`
crate: fails if any character is outside the alphabet, otherwise one zero
byte per leading zero digit followed by the big-endian base-256 bytes of the
value. -/
def b58decode (s : List Nat) : Option (List Nat) :=
  if ∀ d ∈ s, d < 58 then
    some (List.replicate (leadingZeroCount s) 0 ++ toBE 256 (ofBE 58 s))
  else none

/-- `parse_pubkey` from `src/main.rs` lines 78-85: `Pubkey::from_str`
base-58-decodes the string and requires exactly 32 bytes; ANY failure is
mapped to the fixed error `BadBase58(InvalidCharacter {character: ' ',
index: 0})`, discarding the real cause and naming no field. -/
def parse_pubkey (s : List Nat) : Except Error (List Nat) :=
  match b58decode s with
  | some bytes =>
    if bytes.length = 32 then Except.ok bytes
    else Except.error (Error.BadBase58 (Bs58Error.invalidCharacter ' ' 0))
  | none => Except.error (Error.BadBase58 (Bs58Error.invalidCharacter ' ' 0))

/-- `Pubkey`'s `Display`: the base-58 encoding of the 32 key bytes; used by
the handlers to re-encode a parsed key (for example `src/main.rs` line
137). -/
def pubkeyToString (bytes : List Nat) : List Nat := b58encode bytes

/-- `parse_hash` from `src/main.rs` lines 87-94: identical shape to
`parse_pubkey` (`Hash::from_str` also requires 32 bytes), also mapping any
failure to `BadBase58(InvalidCharacter {character: ' ', index: 0})`. -/
def parse_hash (s : List Nat) : Except Error (List Nat) :=
  match b58decode s with
  | some bytes =>
    if bytes.length = 32 then Except.ok bytes
    else Except.error (Error.BadBase58 (Bs58Error.invalidCharacter ' ' 0))
  | none => Except.error (Error.BadBase58 (Bs58Error.invalidCharacter ' ' 0))

/-- Decidable equality for `Except`, needed to evaluate the embedded
fallible operations on concrete inputs. -/
instance {e a : Type} [DecidableEq e] [DecidableEq a] : DecidableEq (Except e a) := fun x y =>
  match x, y with
  | Except.ok v, Except.ok w =>
    if h : v = w then isTrue (by rw [h]) else isFalse (fun hc => h (Except.ok.inj hc))
  | Except.error v, Except.error w =>
    if h : v = w then isTrue (by rw [h]) else isFalse (fun hc => h (Except.error.inj hc))
  | Except.ok _, Except.error _ => isFalse (fun hc => Except.noConfusion hc)
  | Except.error _, Except.ok _ => isFalse (fun hc => Except.noConfusion hc)

/-- Concrete protocol parameters used to evaluate the development on small
inputs: base point `1`, and simple (collision-free on the inputs involved)
stand-ins for the two hash functions. -/
def tss0 : TssParams :=
  { g := 1
    coeffHash := fun _ k => k + 1
    challengeHash := fun R X _ => R + X + 1 }

/-- Concrete SDK primitives used to evaluate the development. -/
def sdk0 : Sdk :=
  { solToLamports := fun q => q.num.toNat
    createWithSeed := fun p s o => some (p + o + s.length)
    ata := fun a b => a + b + 7
    stakeSpace := 200 }

/-- Chain responses: every account exists and rent-exemption is 0. -/
def env0 : RpcEnv := { rentResponse := Except.ok 0, accountExists := fun _ => true }

/-- Chain responses: every account exists and rent-exemption is 1. -/
def envR1 : RpcEnv := { rentResponse := Except.ok 1, accountExists := fun _ => true }

/-- Chain responses: exactly the account `11` (the source ATA in the C8
scenario) is missing; rent-exemption is 0. -/
def env8 : RpcEnv := { rentResponse := Except.ok 0, accountExists := fun a => decide (a ≠ 11) }

/-- Chain responses: no account exists; rent-exemption is 0. -/
def env9 : RpcEnv := { rentResponse := Except.ok 0, accountExists := fun _ => false }

/-- C5: round-2 partial signing validates fail-fast, before any scalar or
point arithmetic: a round-1 message count differing from the key count yields
`MismatchMessages`, and (when the counts agree) a caller public key absent
from the key list yields `KeyPairIsNotInKeys`.  Both error results are
independent of the secret state, the nonce commitments and the payload, as
witnessed by the universal quantification over them. -/
theorem step_two_fail_fast (tp : TssParams) (sdk : Sdk) (x : Scalar) (amount : Rat)
    (toPk : Pubkey) (memo : Option String) (bh : Blockhash) (keys : List Pubkey)
    (first_messages : List AggMessage1) (secret : SecretAggStepOne) :
    (first_messages.length ≠ keys.length →
      step_two tp sdk x amount toPk memo bh keys first_messages secret
        = Except.error Error.MismatchMessages) ∧
    (first_messages.length = keys.length → x * tp.g ∉ keys →
      step_two tp sdk x amount toPk memo bh keys first_messages secret
        = Except.error Error.KeyPairIsNotInKeys) := by
  constructor
  · intro h
    simp [step_two, h]
  · intro h hmem
    simp [step_two, h, hmem]

/-- C5 witness: with two keys but no round-1 message the mismatch error is
returned; with matching counts but a keypair (`x = 1`, so pubkey `1`) outside
the key list `[2, 3]` the not-a-participant error is returned. -/
theorem step_two_fail_fast_witness :
    (([] : List AggMessage1).length ≠ ([2, 3] : List Pubkey).length ∧
      step_two tss0 sdk0 1 1 3 none 0 [2, 3] [] ⟨0⟩
        = Except.error Error.MismatchMessages) ∧
    (((1 : Scalar) * tss0.g ∉ ([2, 3] : List Pubkey)) ∧
      step_two tss0 sdk0 1 1 3 none 0 [2, 3] [⟨1⟩, ⟨1⟩] ⟨0⟩
        = Except.error Error.KeyPairIsNotInKeys) :=
  ⟨⟨by decide,
    (step_two_fail_fast tss0 sdk0 1 1 3 none 0 [2, 3] [] ⟨0⟩).1 (by decide)⟩,
   ⟨by decide,
    (step_two_fail_fast tss0 sdk0 1 1 3 none 0 [2, 3] [⟨1⟩, ⟨1⟩] ⟨0⟩).2
      (by decide) (by decide)⟩⟩

/-- C6: key aggregation rejects any key list containing a duplicate with the
validation error `duplicateKeys` (a `KeyAggError`, a different channel from
the decode errors, which arise upstream in `parse_pubkey`), and succeeds on
every non-empty duplicate-free key list. -/
theorem key_agg_duplicates_and_success (tp : TssParams) (keys : List Pubkey) :
    (¬ keys.Nodup → key_agg tp keys = Except.error KeyAggError.duplicateKeys) ∧
    (keys ≠ [] → keys.Nodup → key_agg tp keys = Except.ok (keyAggCore tp keys)) := by
  constructor
  · intro h
    have hne : keys ≠ [] := by
      rintro rfl
      exact h List.nodup_nil
    simp [key_agg, hne, h]
  · intro hne hnd
    simp [key_agg, hne, hnd]

/-- C6 witness: `[1, 1]` is rejected as duplicate, `[1, 2]` aggregates. -/
theorem key_agg_duplicates_and_success_witness :
    (¬ ([1, 1] : List Pubkey).Nodup ∧
      key_agg tss0 [1, 1] = Except.error KeyAggError.duplicateKeys) ∧
    (([1, 2] : List Pubkey).Nodup ∧
      key_agg tss0 [1, 2] = Except.ok (keyAggCore tss0 [1, 2])) :=
  ⟨⟨by decide, (key_agg_duplicates_and_success tss0 [1, 1]).1 (by decide)⟩,
   ⟨by decide, (key_agg_duplicates_and_success tss0 [1, 2]).2 (by decide) (by decide)⟩⟩

/-- C4: whenever the assembled final signature fails ordinary verification
against the aggregated public key over the rendered message, the aggregation
operation returns `InvalidSignature`, and the `aggregate_signatures` handler
produces an error response handing nothing to the broadcast RPC (for any
requested network). -/
theorem invalid_signature_aborts (tp : TssParams) (sdk : Sdk) (amount : Rat)
    (toPk : Pubkey) (memo : Option String) (bh : Blockhash) (keys : List Pubkey)
    (sigs : List PartialSignature) (aggKey : Point)
    (hk : key_agg tp keys = Except.ok aggKey)
    (hv : verify_sig tp aggKey (create_unsigned_transaction sdk amount toPk memo aggKey, bh)
        ((sigs.map PartialSignature.Ri).sum) ((sigs.map PartialSignature.si).sum) = false) :
    sign_and_broadcast tp sdk amount toPk memo bh keys sigs
      = Except.error Error.InvalidSignature ∧
    ∀ net, aggregate_signatures tp sdk net amount toPk memo bh keys sigs
      = ⟨true, []⟩ := by
  have h1 : sign_and_broadcast tp sdk amount toPk memo bh keys sigs
      = Except.error Error.InvalidSignature := by
    simp [sign_and_broadcast, hk, hv]
  exact ⟨h1, fun net => by simp [aggregate_signatures, h1]⟩

/-- C4 witness: with key set `[1]` (aggregated key `2` under `tss0`) and the
single partial signature `(R_i, s_i) = (0, 5)` verification fails, the
aggregation returns `InvalidSignature`, and no broadcast happens. -/
theorem invalid_signature_aborts_witness :
    key_agg tss0 [1] = Except.ok 2 ∧
    sign_and_broadcast tss0 sdk0 1 3 none 0 [1] [⟨0, 5⟩]
      = Except.error Error.InvalidSignature ∧
    aggregate_signatures tss0 sdk0 Network.Devnet 1 3 none 0 [1] [⟨0, 5⟩]
      = ⟨true, []⟩ :=
  ⟨by decide,
   (invalid_signature_aborts tss0 sdk0 1 3 none 0 [1] [⟨0, 5⟩] 2
      (by decide) (by decide)).1,
   (invalid_signature_aborts tss0 sdk0 1 3 none 0 [1] [⟨0, 5⟩] 2
      (by decide) (by decide)).2 Network.Devnet⟩

/-- C10: the stake-account-creation template and the SPL token-transfer
template contact only the hardcoded Testnet RPC endpoint, whatever network
the request selected, and the rendered transaction is independent of the
requested network (the handlers never pass `net` to the renderers). -/
theorem templates_hardcode_testnet (sdk : Sdk) (net net2 : Network) (stake_amount : Nat)
    (seed : String) (payer vote : Pubkey) (amount : Nat) (fromPk toPk mint tpayer : Pubkey)
    (memo : Option String) (decimals : Nat) (env : RpcEnv) :
    stake_account_tx sdk net stake_amount seed payer vote env
      = stake_account_tx sdk net2 stake_amount seed payer vote env ∧
    spl_token_tx sdk net amount fromPk toPk mint tpayer memo decimals env
      = spl_token_tx sdk net2 amount fromPk toPk mint tpayer memo decimals env ∧
    (∀ c ∈ (create_stake_account_transaction sdk stake_amount seed payer vote env).2,
      c.endpoint = Network.Testnet.get_cluster_url) ∧
    (∀ c ∈ (create_spl_token_transaction sdk amount fromPk toPk mint tpayer memo
        decimals env).2, c.endpoint = Network.Testnet.get_cluster_url) := by
  refine ⟨rfl, rfl, ?_, ?_⟩
  · intro c hc
    unfold create_stake_account_transaction at hc
    rcases h1 : sdk.createWithSeed payer seed stakeProgramId with _ | acct <;> rw [h1] at hc
    · simp at hc
    · rcases h2 : env.rentResponse with e | rent <;> simp [h2] at hc <;> subst hc <;> rfl
  · intro c hc
    unfold create_spl_token_transaction at hc
    simp at hc
    rcases hc with h | h <;> subst h <;> rfl

/-- C10 witness: concrete evaluation; the network argument (Mainnet versus
Devnet) does not change the rendered stake transaction, and the rent RPC
call goes to the Testnet cluster URL. -/
theorem templates_hardcode_testnet_witness :
    stake_account_tx sdk0 Network.Mainnet 5 "s" 1 2 env0
      = stake_account_tx sdk0 Network.Devnet 5 "s" 1 2 env0 ∧
    spl_token_tx sdk0 Network.Mainnet 9 1 2 3 1 none 6 env0
      = spl_token_tx sdk0 Network.Devnet 9 1 2 3 1 none 6 env0 ∧
    RpcCall.endpoint ⟨testnetUrl, RpcReq.getMinimumBalanceForRentExemption sdk0.stakeSpace⟩
      = Network.Testnet.get_cluster_url :=
  ⟨(templates_hardcode_testnet sdk0 Network.Mainnet Network.Devnet 5 "s" 1 2 9 1 2 3 1
      none 6 env0).1,
   (templates_hardcode_testnet sdk0 Network.Mainnet Network.Devnet 5 "s" 1 2 9 1 2 3 1
      none 6 env0).2.1,
   (templates_hardcode_testnet sdk0 Network.Mainnet Network.Devnet 5 "s" 1 2 9 1 2 3 1
      none 6 env0).2.2.1 ⟨testnetUrl, RpcReq.getMinimumBalanceForRentExemption sdk0.stakeSpace⟩
      (by decide)⟩

/-- C7 counterexample: the stake-account-creation template, one of the core
transaction-template renderers, performs a blocking network call while
rendering: at a concrete valid input its RPC trace is non-empty (it queries
the rent-exemption minimum), refuting the claim that no core protocol
operation waits on a network call. -/
theorem stake_template_queries_rpc :
    (create_stake_account_transaction sdk0 5 "s" 1 2 env0).2 ≠ [] := by decide

/-- C7 amended: key aggregation, both rounds, aggregation/verification and
the native-transfer/stake-deactivation/stake-withdrawal templates are pure
(their embeddings take no RPC environment and issue no calls), but the SPL
token-transfer template always issues exactly two `get_account` probes and
the stake-account-creation template issues a rent-exemption query whenever
the seed is valid (and nothing otherwise), all against the hardcoded
Testnet endpoint. -/
theorem rpc_trace_of_templates (sdk : Sdk) (stake_amount : Nat) (seed : String)
    (payer vote : Pubkey) (amount : Nat) (fromPk toPk mint tpayer : Pubkey)
    (memo : Option String) (decimals : Nat) (env : RpcEnv) :
    ((create_spl_token_transaction sdk amount fromPk toPk mint tpayer memo decimals env).2
      = [⟨testnetUrl, RpcReq.getAccount (sdk.ata fromPk mint)⟩,
         ⟨testnetUrl, RpcReq.getAccount (sdk.ata toPk mint)⟩]) ∧
    (∀ acct, sdk.createWithSeed payer seed stakeProgramId = some acct →
      (create_stake_account_transaction sdk stake_amount seed payer vote env).2
        = [⟨testnetUrl, RpcReq.getMinimumBalanceForRentExemption sdk.stakeSpace⟩]) ∧
    (sdk.createWithSeed payer seed stakeProgramId = none →
      (create_stake_account_transaction sdk stake_amount seed payer vote env).2 = []) := by
  refine ⟨rfl, ?_, ?_⟩
  · intro acct h
    unfold create_stake_account_transaction
    rw [h]
    rcases h2 : env.rentResponse with e | rent <;> simp [h2]
  · intro h
    unfold create_stake_account_transaction
    rw [h]

/-- C7 witness: concrete evaluation of the two effectful templates. -/
theorem rpc_trace_of_templates_witness :
    ((create_spl_token_transaction sdk0 9 1 2 3 1 none 6 env0).2
      = [⟨testnetUrl, RpcReq.getAccount (sdk0.ata 1 3)⟩,
         ⟨testnetUrl, RpcReq.getAccount (sdk0.ata 2 3)⟩]) ∧
    sdk0.createWithSeed 1 "s" stakeProgramId = some 103 ∧
    ((create_stake_account_transaction sdk0 5 "s" 1 2 env0).2
      = [⟨testnetUrl, RpcReq.getMinimumBalanceForRentExemption sdk0.stakeSpace⟩]) :=
  ⟨(rpc_trace_of_templates sdk0 5 "s" 1 2 9 1 2 3 1 none 6 env0).1,
   by decide,
   (rpc_trace_of_templates sdk0 5 "s" 1 2 9 1 2 3 1 none 6 env0).2.1 103 (by decide)⟩

/-- C8: at the failing input (source ATA `11` absent, destination ATA `12`
present) the SPL token-transfer template still emits a
create-destination-associated-account instruction, although the destination
account exists; and when both ATAs are absent it emits that instruction
twice.  The spec (and the sibling single-party path `spl_send_single` in
`src/main.rs` lines 472-489) adds it exactly when the destination ATA is
absent; the template's first branch checks `from_ata` but creates the ATA of
`to` (`src/spl_token_utils.rs` lines 29-39). -/
theorem spl_creates_dest_ata_despite_existing :
    env8.accountExists (sdk0.ata 2 3) = true ∧
    (create_spl_token_transaction sdk0 9 1 2 3 1 none 6 env8).1
      = Except.ok ⟨⟨[Instruction.createAssociatedTokenAccount 1 2 3 splTokenProgramId,
          Instruction.splTransfer splTokenProgramId 11 12 1 9], 1⟩⟩ ∧
    (create_spl_token_transaction sdk0 9 1 2 3 1 none 6 env9).1
      = Except.ok ⟨⟨[Instruction.createAssociatedTokenAccount 1 2 3 splTokenProgramId,
          Instruction.createAssociatedTokenAccount 1 2 3 splTokenProgramId,
          Instruction.splTransfer splTokenProgramId 11 12 1 9], 1⟩⟩ := by
  refine ⟨by decide, by decide, by decide⟩

/-- C2 counterexample: two invocations of the stake-account-creation
template with identical logical payload parameters but different chain-side
rent responses render different messages, refuting byte-stability across
repeated calls and processes. -/
theorem stake_render_not_param_deterministic :
    (create_stake_account_transaction sdk0 5 "s" 1 2 env0).1
      ≠ (create_stake_account_transaction sdk0 5 "s" 1 2 envR1).1 := by decide

/-- C2 amended: the native-transfer template is a pure function of its
logical parameters (its embedding takes no RPC environment), and the other
templates are deterministic only in the logical parameters TOGETHER with the
RPC responses observed while rendering: equal rent responses (resp. equal
account-existence answers) give identical renderings, while different rent
responses provably change the rendered stake message. -/
theorem template_determinism (sdk : Sdk) (stake_amount : Nat) (seed : String)
    (payer vote : Pubkey) (amt : Nat) (fromPk toPk mint tpayer : Pubkey)
    (memo : Option String) (decimals : Nat) (env env2 : RpcEnv) :
    (env.rentResponse = env2.rentResponse →
      create_stake_account_transaction sdk stake_amount seed payer vote env
        = create_stake_account_transaction sdk stake_amount seed payer vote env2) ∧
    (∀ r r2 acct, sdk.createWithSeed payer seed stakeProgramId = some acct →
      env.rentResponse = Except.ok r → env2.rentResponse = Except.ok r2 → r ≠ r2 →
      (create_stake_account_transaction sdk stake_amount seed payer vote env).1
        ≠ (create_stake_account_transaction sdk stake_amount seed payer vote env2).1) ∧
    (env.accountExists (sdk.ata fromPk mint) = env2.accountExists (sdk.ata fromPk mint) →
      env.accountExists (sdk.ata toPk mint) = env2.accountExists (sdk.ata toPk mint) →
      create_spl_token_transaction sdk amt fromPk toPk mint tpayer memo decimals env
        = create_spl_token_transaction sdk amt fromPk toPk mint tpayer memo decimals env2) := by
  refine ⟨?_, ?_, ?_⟩
  · intro h
    unfold create_stake_account_transaction
    rw [h]
  · intro r r2 acct hseed h1 h2 hne
    simp only [create_stake_account_transaction, hseed, h1, h2]
    intro hEq
    simp only [Except.ok.injEq, Transaction.mk.injEq, Message.mk.injEq, List.cons.injEq,
      Instruction.createAccountWithSeed.injEq, and_true, true_and] at hEq
    omega
  · intro h1 h2
    simp only [create_spl_token_transaction, h1, h2]

/-- C2 witness: concrete evaluation of the amended statement. -/
theorem template_determinism_witness :
    (env0.rentResponse = env0.rentResponse ∧
      create_stake_account_transaction sdk0 5 "s" 1 2 env0
        = create_stake_account_transaction sdk0 5 "s" 1 2 env0) ∧
    ((0 : Nat) ≠ 1 ∧
      (create_stake_account_transaction sdk0 5 "s" 1 2 env0).1
        ≠ (create_stake_account_transaction sdk0 5 "s" 1 2 envR1).1) :=
  ⟨⟨rfl, (template_determinism sdk0 5 "s" 1 2 9 1 2 3 1 none 6 env0 env0).1 rfl⟩,
   ⟨by decide,
    (template_determinism sdk0 5 "s" 1 2 9 1 2 3 1 none 6 env0 envR1).2.1 0 1 103
      (by decide) (by decide) (by decide) (by decide)⟩⟩

/-- Two key lists that are permutations of each other canonicalize to the
same sorted list. -/
theorem sortKeys_perm_eq {l1 l2 : List Pubkey} (h : l1.Perm l2) :
    sortKeys l1 = sortKeys l2 :=
  List.eq_of_perm_of_sorted
    (((List.perm_insertionSort keyLe l1).trans h).trans
      (List.perm_insertionSort keyLe l2).symm)
    (List.sorted_insertionSort keyLe l1)
    (List.sorted_insertionSort keyLe l2)

/-- C3: key aggregation is order-independent: for every non-empty list of
unique public keys and every permutation of it, aggregation yields the same
result, because the implementation canonicalizes (sorts) the set before
computing coefficients. -/
theorem key_agg_order_independent (tp : TssParams) (l1 l2 : List Pubkey)
    (hne : l1 ≠ []) (hnd : l1.Nodup) (hp : l1.Perm l2) :
    key_agg tp l1 = key_agg tp l2 := by
  have hs : sortKeys l1 = sortKeys l2 := sortKeys_perm_eq hp
  have hne2 : l2 ≠ [] := by
    intro h
    subst h
    exact hne hp.eq_nil
  have hnd2 : l2.Nodup := hp.nodup hnd
  simp [key_agg, hne, hne2, hnd, hnd2, keyAggCore, keyAggCoeff, hs]

/-- C3 witness: aggregating `[1, 2]` and its permutation `[2, 1]` agree. -/
theorem key_agg_order_independent_witness :
    ([1, 2] : List Pubkey) ≠ [] ∧ ([1, 2] : List Pubkey).Nodup ∧
    ([1, 2] : List Pubkey).Perm [2, 1] ∧
    key_agg tss0 [1, 2] = key_agg tss0 [2, 1] :=
  ⟨by decide, by decide, by decide,
   key_agg_order_independent tss0 [1, 2] [2, 1] (by decide) (by decide) (by decide)⟩

/-- Linearity of the partial-signature sum: multiplying the summed responses
by the base point splits into the aggregated nonce plus the challenge times
the coefficient-weighted key sum. -/
theorem sum_lin (l : List (Scalar × Scalar)) (h : Scalar × Scalar → Scalar) (c g : Scalar) :
    ((l.map fun p => p.2 + c * h p * p.1).sum) * g
      = (l.map fun p => p.2 * g).sum + c * (l.map fun p => h p * (p.1 * g)).sum := by
  induction l with
  | nil => simp
  | cons a t ih =>
    simp only [List.map_cons, List.sum_cons]
    rw [add_mul, ih]
    ring

/-- The aggregated public key of the key set of `ps` equals the sum of the
coefficient-weighted keys over `ps` itself (the canonicalizing sort permutes
the summands only). -/
theorem keyAggCore_eq_sum_over_ps (tp : TssParams) (ps : List (Scalar × Scalar)) :
    keyAggCore tp (ps.map fun q => q.1 * tp.g)
      = (ps.map fun p =>
          keyAggCoeff tp (ps.map fun q => q.1 * tp.g) (p.1 * tp.g) * (p.1 * tp.g)).sum := by
  unfold keyAggCore sortKeys
  rw [((List.perm_insertionSort keyLe (ps.map fun q => q.1 * tp.g)).map
      (fun k => keyAggCoeff tp (ps.map fun q => q.1 * tp.g) k * k)).sum_eq]
  rw [List.map_map]
  rfl

/-- Closed form of round 2 when validation passes: with matching counts, a
member caller key, and a valid key set, `step_two` returns the partial
signature built from the secret nonce, the challenge and the caller
coefficient. -/
theorem step_two_ok (tp : TssParams) (sdk : Sdk) (x : Scalar) (amount : Rat)
    (toPk : Pubkey) (memo : Option String) (bh : Blockhash) (keys : List Pubkey)
    (msgs : List AggMessage1) (secret : SecretAggStepOne)
    (hlen : msgs.length = keys.length) (hmem : x * tp.g ∈ keys)
    (hne : keys ≠ []) (hnd : keys.Nodup) :
    step_two tp sdk x amount toPk memo bh keys msgs secret
      = Except.ok ⟨secret.r * tp.g,
          secret.r + tp.challengeHash ((msgs.map AggMessage1.Ri).sum) (keyAggCore tp keys)
              (create_unsigned_transaction sdk amount toPk memo (keyAggCore tp keys), bh)
            * keyAggCoeff tp keys (x * tp.g) * x⟩ := by
  have hka : key_agg tp keys = Except.ok (keyAggCore tp keys) := by
    simp [key_agg, hne, hnd]
  unfold step_two
  rw [if_neg (fun hc => hc hlen), if_neg (fun hc => hc hmem), hka]

/-- C1: completeness of the protocol.  For any participant count between 1
and 8 (secret keys with unique public keys), any payload (amount, recipient,
memo, checkpoint): if every participant runs round 1 (producing the nonce
commitments and secret states), then round 2 over the full commitment set
(producing the partial signatures `sigs`), then aggregation over `sigs`
succeeds, and the assembled signature verifies against the aggregated public
key of that exact key set over that payload. -/
theorem full_protocol_verifies
    (tp : TssParams) (sdk : Sdk) (amount : Rat) (toPk : Pubkey) (memo : Option String)
    (bh : Blockhash) (ps : List (Scalar × Scalar)) (sigs : List PartialSignature)
    (h1 : 1 ≤ ps.length) (h8 : ps.length ≤ 8)
    (hnd : (ps.map fun p => p.1 * tp.g).Nodup)
    (hlen : sigs.length = ps.length)
    (hstep : ∀ i (h : i < ps.length),
      step_two tp sdk (ps.get ⟨i, h⟩).1 amount toPk memo bh
        (ps.map fun p => p.1 * tp.g)
        (ps.map fun p => (step_one tp p.1 p.2).1)
        (step_one tp (ps.get ⟨i, h⟩).1 (ps.get ⟨i, h⟩).2).2
        = Except.ok (sigs.get ⟨i, lt_of_lt_of_eq h hlen.symm⟩)) :
    ∃ st, sign_and_broadcast tp sdk amount toPk memo bh (ps.map fun p => p.1 * tp.g) sigs
        = Except.ok st ∧
      verify_sig tp (keyAggCore tp (ps.map fun p => p.1 * tp.g))
        (create_unsigned_transaction sdk amount toPk memo
          (keyAggCore tp (ps.map fun p => p.1 * tp.g)), bh) st.R st.s = true := by
  have hpsne : ps ≠ [] := by
    intro h
    subst h
    simp at h1
  have hkne : (ps.map fun p => p.1 * tp.g) ≠ [] := by
    simp [hpsne]
  have hka : key_agg tp (ps.map fun p => p.1 * tp.g)
      = Except.ok (keyAggCore tp (ps.map fun p => p.1 * tp.g)) := by
    simp [key_agg, hkne, hnd]
  have hmlen : (ps.map fun p => (step_one tp p.1 p.2).1).length
      = (ps.map fun p => p.1 * tp.g).length := by
    simp
  have hmsgs : ((ps.map fun p => (step_one tp p.1 p.2).1).map AggMessage1.Ri)
      = ps.map fun p => p.2 * tp.g := by
    rw [List.map_map]
    rfl
  have hsig : ∀ i (h : i < ps.length),
      sigs.get ⟨i, lt_of_lt_of_eq h hlen.symm⟩
        = ⟨(ps.get ⟨i, h⟩).2 * tp.g,
           (ps.get ⟨i, h⟩).2
             + tp.challengeHash ((ps.map fun p => p.2 * tp.g).sum)
                 (keyAggCore tp (ps.map fun p => p.1 * tp.g))
                 (create_unsigned_transaction sdk amount toPk memo
                   (keyAggCore tp (ps.map fun p => p.1 * tp.g)), bh)
               * keyAggCoeff tp (ps.map fun p => p.1 * tp.g) ((ps.get ⟨i, h⟩).1 * tp.g)
               * (ps.get ⟨i, h⟩).1⟩ := by
    intro i h
    have hm : (ps.get ⟨i, h⟩).1 * tp.g ∈ ps.map fun p => p.1 * tp.g :=
      List.mem_map_of_mem (fun p => p.1 * tp.g) (List.get_mem ps i h)
    have hst := hstep i h
    rw [step_two_ok tp sdk (ps.get ⟨i, h⟩).1 amount toPk memo bh
        (ps.map fun p => p.1 * tp.g) (ps.map fun p => (step_one tp p.1 p.2).1)
        (step_one tp (ps.get ⟨i, h⟩).1 (ps.get ⟨i, h⟩).2).2
        hmlen hm hkne hnd, hmsgs] at hst
    exact (Except.ok.inj hst).symm
  have hsigs_eq : sigs = ps.map fun p =>
      PartialSignature.mk (p.2 * tp.g)
        (p.2 + tp.challengeHash ((ps.map fun q => q.2 * tp.g).sum)
            (keyAggCore tp (ps.map fun q => q.1 * tp.g))
            (create_unsigned_transaction sdk amount toPk memo
              (keyAggCore tp (ps.map fun q => q.1 * tp.g)), bh)
          * keyAggCoeff tp (ps.map fun q => q.1 * tp.g) (p.1 * tp.g) * p.1) := by
    apply List.ext_get
    · simp [hlen]
    · intro n hn1 hn2
      rw [List.get_map]
      have hn : n < ps.length := by
        simpa using hn2
      exact hsig n hn
  have hR : (sigs.map PartialSignature.Ri).sum = (ps.map fun p => p.2 * tp.g).sum := by
    rw [hsigs_eq, List.map_map]
    rfl
  have hS : (sigs.map PartialSignature.si).sum
      = (ps.map fun p =>
          p.2 + tp.challengeHash ((ps.map fun q => q.2 * tp.g).sum)
              (keyAggCore tp (ps.map fun q => q.1 * tp.g))
              (create_unsigned_transaction sdk amount toPk memo
                (keyAggCore tp (ps.map fun q => q.1 * tp.g)), bh)
            * keyAggCoeff tp (ps.map fun q => q.1 * tp.g) (p.1 * tp.g) * p.1).sum := by
    rw [hsigs_eq, List.map_map]
    rfl
  have hver : verify_sig tp (keyAggCore tp (ps.map fun p => p.1 * tp.g))
      (create_unsigned_transaction sdk amount toPk memo
        (keyAggCore tp (ps.map fun p => p.1 * tp.g)), bh)
      ((sigs.map PartialSignature.Ri).sum) ((sigs.map PartialSignature.si).sum) = true := by
    rw [verify_sig, decide_eq_true_eq, hR, hS]
    rw [sum_lin ps
      (fun p => keyAggCoeff tp (ps.map fun q => q.1 * tp.g) (p.1 * tp.g)) _ tp.g]
    rw [← keyAggCore_eq_sum_over_ps]
  refine ⟨⟨create_unsigned_transaction sdk amount toPk memo
      (keyAggCore tp (ps.map fun p => p.1 * tp.g)),
    (sigs.map PartialSignature.Ri).sum, (sigs.map PartialSignature.si).sum⟩, ?_, hver⟩
  simp only [sign_and_broadcast, hka]
  rw [if_pos hver]

/-- C1 witness: a concrete two-participant run (secrets 1 and 2, nonces 2
and 5, payload: 1 unit to key 3 at checkpoint 0) with the partial signatures
the two round-2 calls produce; aggregation succeeds and verifies. -/
theorem full_protocol_verifies_witness :
    ([((1 : Scalar), (2 : Scalar)), (2, 5)].map fun p => p.1 * tss0.g).Nodup ∧
    (∃ st, sign_and_broadcast tss0 sdk0 1 3 none 0
        ([((1 : Scalar), (2 : Scalar)), (2, 5)].map fun p => p.1 * tss0.g)
        [⟨2, 34⟩, ⟨5, 101⟩] = Except.ok st ∧
      verify_sig tss0
        (keyAggCore tss0 ([((1 : Scalar), (2 : Scalar)), (2, 5)].map fun p => p.1 * tss0.g))
        (create_unsigned_transaction sdk0 1 3 none
          (keyAggCore tss0
            ([((1 : Scalar), (2 : Scalar)), (2, 5)].map fun p => p.1 * tss0.g)), 0)
        st.R st.s = true) :=
  ⟨by decide,
   full_protocol_verifies tss0 sdk0 1 3 none 0 [((1 : Scalar), (2 : Scalar)), (2, 5)]
     [⟨2, 34⟩, ⟨5, 101⟩] (by decide) (by decide) (by decide) (by decide) (by decide)⟩

/-- Prepending `k` zero digits to a string whose head is non-zero gives a
string with exactly `k` leading zeros. -/
theorem lzc_replicate_append (k : Nat) (l : List Nat)
    (hl : ∀ a t, l = a :: t → a ≠ 0) :
    leadingZeroCount (List.replicate k 0 ++ l) = k := by
  induction k with
  | zero =>
    simp only [List.replicate, List.nil_append]
    cases l with
    | nil => rfl
    | cons a t =>
      have ha := hl a t rfl
      simp [leadingZeroCount, ha]
  | succ n ih =>
    simp [List.replicate_succ, leadingZeroCount, ih]

/-- Every digit string is its leading zeros followed by its zero-stripped
core. -/
theorem decomp_lzc (l : List Nat) :
    List.replicate (leadingZeroCount l) 0 ++ dropLeadingZeros l = l := by
  induction l with
  | nil => rfl
  | cons a t ih =>
    by_cases ha : a = 0
    · subst ha
      simp [leadingZeroCount, dropLeadingZeros, List.replicate_succ, ih]
    · simp [leadingZeroCount, dropLeadingZeros, ha]

/-- The zero-stripped core has a non-zero head. -/
theorem dropLeadingZeros_head (l : List Nat) :
    ∀ a t, dropLeadingZeros l = a :: t → a ≠ 0 := by
  induction l with
  | nil =>
    intro a t h
    simp [dropLeadingZeros] at h
  | cons b s ih =>
    intro a t h
    by_cases hb : b = 0
    · subst hb
      rw [dropLeadingZeros, if_pos rfl] at h
      exact ih a t h
    · rw [dropLeadingZeros, if_neg hb] at h
      rw [← (List.cons.inj h).1]
      exact hb

/-- The zero-stripped core is made of digits of the original string. -/
theorem mem_dropLeadingZeros (l : List Nat) (d : Nat) (h : d ∈ dropLeadingZeros l) :
    d ∈ l := by
  induction l with
  | nil =>
    simp [dropLeadingZeros] at h
  | cons b s ih =>
    by_cases hb : b = 0
    · subst hb
      rw [dropLeadingZeros, if_pos rfl] at h
      exact List.mem_cons_of_mem 0 (ih h)
    · rw [dropLeadingZeros, if_neg hb] at h
      exact h

/-- A string of zero digits has value zero. -/
theorem ofDigits_replicate_zero (b k : Nat) :
    Nat.ofDigits b (List.replicate k 0) = 0 := by
  induction k with
  | zero => rfl
  | succ n ih => simp [List.replicate_succ, Nat.ofDigits_cons, ih]

/-- Leading zeros do not change the value of a big-endian digit string. -/
theorem ofBE_replicate_append (b k : Nat) (l : List Nat) :
    ofBE b (List.replicate k 0 ++ l) = ofBE b l := by
  unfold ofBE
  rw [List.reverse_append, List.reverse_replicate, Nat.ofDigits_append,
    ofDigits_replicate_zero]
  simp

/-- Value of the canonical digit string of `v` is `v`. -/
theorem ofBE_toBE (b v : Nat) : ofBE b (toBE b v) = v := by
  unfold ofBE toBE
  rw [List.reverse_reverse, Nat.ofDigits_digits]

/-- The canonical big-endian digit string of a value has a non-zero head. -/
theorem toBE_head_ne_zero (b v : Nat) : ∀ a t, toBE b v = a :: t → a ≠ 0 := by
  intro a t h
  have hv : v ≠ 0 := by
    intro h0
    subst h0
    simp [toBE] at h
  have hd : Nat.digits b v = t.reverse ++ [a] := by
    calc Nat.digits b v = (Nat.digits b v).reverse.reverse := (List.reverse_reverse _).symm
      _ = (a :: t).reverse := by rw [show (Nat.digits b v).reverse = a :: t from h]
      _ = t.reverse ++ [a] := by simp
  have hne : Nat.digits b v ≠ [] := Nat.digits_ne_nil_iff_ne_zero.mpr hv
  have hg : (Nat.digits b v).getLast? = some a := by
    rw [hd, List.getLast?_concat]
  rw [List.getLast?_eq_getLast _ hne] at hg
  have hga := Option.some.inj hg
  rw [← hga]
  exact Nat.getLast_digit_ne_zero b hv

/-- The canonical digit string of a value keeps digits below the base. -/
theorem toBE_lt (b v : Nat) (hb : 1 < b) : ∀ d ∈ toBE b v, d < b := by
  intro d hd
  rw [toBE, List.mem_reverse] at hd
  exact Nat.digits_lt_base hb hd

/-- Converting the value of a canonical (no leading zero, digits below base)
big-endian string back to digits is the identity. -/
theorem toBE_ofBE (b : Nat) (hb : 1 < b) (l : List Nat) (hlt : ∀ d ∈ l, d < b)
    (hhd : ∀ a t, l = a :: t → a ≠ 0) : toBE b (ofBE b l) = l := by
  cases l with
  | nil => simp [ofBE, toBE, Nat.ofDigits]
  | cons a t =>
    have ha := hhd a t rfl
    unfold ofBE toBE
    have hlast : ∀ h : (a :: t).reverse ≠ [], ((a :: t).reverse).getLast h ≠ 0 := by
      intro hne
      have hsome : ((a :: t).reverse).getLast? = some a := by
        rw [List.reverse_cons, List.getLast?_concat]
      rw [List.getLast?_eq_getLast _ hne] at hsome
      rw [Option.some.inj hsome]
      exact ha
    rw [Nat.digits_ofDigits b hb ((a :: t).reverse)
      (fun d hd => hlt d (List.mem_reverse.mp hd)) hlast]
    exact List.reverse_reverse _

/-- Decoding a base-58 encoding recovers the original bytes. -/
theorem b58_decode_encode (bytes : List Nat) (h256 : ∀ d ∈ bytes, d < 256) :
    b58decode (b58encode bytes) = some bytes := by
  unfold b58encode b58decode
  have hval : ∀ d ∈ List.replicate (leadingZeroCount bytes) 0
      ++ toBE 58 (ofBE 256 bytes), d < 58 := by
    intro d hd
    rcases List.mem_append.mp hd with h | h
    · rw [List.eq_of_mem_replicate h]
      omega
    · exact toBE_lt 58 _ (by omega) d h
  rw [if_pos hval]
  have hz : leadingZeroCount (List.replicate (leadingZeroCount bytes) 0
      ++ toBE 58 (ofBE 256 bytes)) = leadingZeroCount bytes :=
    lzc_replicate_append _ _ (toBE_head_ne_zero 58 _)
  rw [hz, ofBE_replicate_append, ofBE_toBE]
  have hv : ofBE 256 bytes = ofBE 256 (dropLeadingZeros bytes) := by
    conv_lhs => rw [← decomp_lzc bytes]
    rw [ofBE_replicate_append]
  rw [hv, toBE_ofBE 256 (by omega) _
    (fun d hd => h256 d (mem_dropLeadingZeros _ _ hd)) (dropLeadingZeros_head bytes)]
  rw [decomp_lzc bytes]

/-- Re-encoding the bytes decoded from an accepted base-58 string reproduces
the identical string. -/
theorem b58_encode_decode (s bytes : List Nat) (hd : b58decode s = some bytes) :
    b58encode bytes = s := by
  unfold b58decode at hd
  by_cases hval : ∀ d ∈ s, d < 58
  · rw [if_pos hval] at hd
    have hbytes := Option.some.inj hd
    subst hbytes
    unfold b58encode
    have hz : leadingZeroCount (List.replicate (leadingZeroCount s) 0
        ++ toBE 256 (ofBE 58 s)) = leadingZeroCount s :=
      lzc_replicate_append _ _ (toBE_head_ne_zero 256 _)
    rw [hz, ofBE_replicate_append, ofBE_toBE]
    have hv : ofBE 58 s = ofBE 58 (dropLeadingZeros s) := by
      conv_lhs => rw [← decomp_lzc s]
      rw [ofBE_replicate_append]
    rw [hv, toBE_ofBE 58 (by omega) _
      (fun d hdm => hval d (mem_dropLeadingZeros _ _ hdm)) (dropLeadingZeros_head s)]
    rw [decomp_lzc s]
  · rw [if_neg hval] at hd
    exact absurd hd (by simp)

/-- C9 counterexample: `parse_pubkey` maps an invalid character AND a
wrong-length input alike to the fixed generic error
`BadBase58(InvalidCharacter ' ' 0)`, which names no field (only
`DeserializationFailed` carries a `field_name`), refuting the claim that
every malformed boundary input fails with an error naming the offending
field. -/
theorem parse_pubkey_error_names_no_field :
    parse_pubkey [99] = Except.error (Error.BadBase58 (Bs58Error.invalidCharacter ' ' 0)) ∧
    parse_pubkey [] = Except.error (Error.BadBase58 (Bs58Error.invalidCharacter ' ' 0)) ∧
    errorFieldName (Error.BadBase58 (Bs58Error.invalidCharacter ' ' 0)) = none := by
  refine ⟨by decide, ?_, rfl⟩
  simp [parse_pubkey, b58decode, leadingZeroCount, ofBE, toBE, Nat.ofDigits]

/-- C9 amended: the public-key (and checkpoint-hash) boundary parsers
round-trip exactly — encoding 32 bytes and parsing returns those bytes, and
re-encoding the bytes parsed from any accepted string reproduces the
identical string — and every malformed or wrong-length input fails with a
decoding error, but that error is the fixed generic
`BadBase58(InvalidCharacter ' ' 0)` carrying NO field name rather than an
error naming the offending field. -/
theorem pubkey_boundary_contract :
    (∀ bytes : List Nat, (∀ d ∈ bytes, d < 256) → bytes.length = 32 →
      parse_pubkey (pubkeyToString bytes) = Except.ok bytes) ∧
    (∀ s bytes, parse_pubkey s = Except.ok bytes → pubkeyToString bytes = s) ∧
    (∀ s e, parse_pubkey s = Except.error e →
      e = Error.BadBase58 (Bs58Error.invalidCharacter ' ' 0) ∧ errorFieldName e = none) ∧
    (∀ s e, parse_hash s = Except.error e →
      e = Error.BadBase58 (Bs58Error.invalidCharacter ' ' 0) ∧ errorFieldName e = none) := by
  refine ⟨?_, ?_, ?_, ?_⟩
  · intro bytes h256 h32
    unfold parse_pubkey pubkeyToString
    rw [b58_decode_encode bytes h256]
    dsimp only
    rw [if_pos h32]
  · intro s bytes h
    unfold parse_pubkey at h
    rcases hb : b58decode s with _ | bs <;> rw [hb] at h <;> dsimp only at h
    · exact absurd h (by simp)
    · by_cases h32 : bs.length = 32
      · rw [if_pos h32] at h
        rw [← Except.ok.inj h]
        exact b58_encode_decode s bs hb
      · rw [if_neg h32] at h
        exact absurd h (by simp)
  · intro s e h
    unfold parse_pubkey at h
    rcases hb : b58decode s with _ | bs <;> rw [hb] at h <;> dsimp only at h
    · refine ⟨(Except.error.inj h).symm, ?_⟩
      rw [← Except.error.inj h]
      rfl
    · by_cases h32 : bs.length = 32
      · rw [if_pos h32] at h
        exact absurd h (by simp)
      · rw [if_neg h32] at h
        refine ⟨(Except.error.inj h).symm, ?_⟩
        rw [← Except.error.inj h]
        rfl
  · intro s e h
    unfold parse_hash at h
    rcases hb : b58decode s with _ | bs <;> rw [hb] at h <;> dsimp only at h
    · refine ⟨(Except.error.inj h).symm, ?_⟩
      rw [← Except.error.inj h]
      rfl
    · by_cases h32 : bs.length = 32
      · rw [if_pos h32] at h
        exact absurd h (by simp)
      · rw [if_neg h32] at h
        refine ⟨(Except.error.inj h).symm, ?_⟩
        rw [← Except.error.inj h]
        rfl

/-- C9 witness: a concrete 32-byte key round-trips through encoding and
`parse_pubkey`, and a concrete malformed input produces the generic
field-less error. -/
theorem pubkey_boundary_contract_witness :
    (∀ d ∈ List.replicate 32 1, d < 256) ∧
    (List.replicate 32 1).length = 32 ∧
    parse_pubkey (pubkeyToString (List.replicate 32 1))
      = Except.ok (List.replicate 32 1) ∧
    errorFieldName (Error.BadBase58 (Bs58Error.invalidCharacter ' ' 0)) = none :=
  ⟨by decide, by decide,
   pubkey_boundary_contract.1 (List.replicate 32 1) (by decide) (by decide),
   (pubkey_boundary_contract.2.2.1 [99] (Error.BadBase58 (Bs58Error.invalidCharacter ' ' 0))
     (by decide)).2⟩
